import Mathlib

/-!
Verification of the document-ingestion core of the `rag_simples` repository.

This file gives a shallow embedding, in Lean 4, of the parts of the Python
source that the verified properties are about:

* `src/ingestion/document_versioning.py`  (namespace `Versioning`)
* `src/ingestion/chunking_system.py`      (namespace `Chunking`)
* `src/ingestion/validation_system.py`    (namespace `Validation`)
* `src/ingestion/progress_tracking.py`    (namespace `Tracking`)
* `src/ingestion/ingestion_pipeline.py`   (namespace `Pipeline`)

Python dictionaries are modelled as insertion-ordered association lists,
machine-generated values (uuids, timestamps, file hashes, file sizes) as
explicit environment inputs, and operations that touch the file system or
external libraries as enumerated outcome values, one per code branch.
Floating-point scores are modelled with exact rationals.
-/

namespace RagSimples

/-! ## Versioning — `document_versioning.py` -/

namespace Versioning

/-- `VersionStatus` from `document_versioning.py`. -/
inductive VersionStatus
  | active | archived | deprecated | processing | errorStatus
  deriving Repr, DecidableEq

/-- A parsed semantic version `major.minor.patch`.  The source stores
`version_number` as a string; `_get_next_version_number` parses it with
`int(parts[i])` under `try/except`, skipping unparseable entries.  We represent
a stored version-number string by its parse result: `some (major, minor,
patch)` for a parseable `major.minor.patch` string, `none` for a string the
parser rejects. -/
abbrev VersionNum := Option (Int × Int × Int)

/-- `DocumentVersion` dataclass.  The `metadata` dict is modelled as a string
association list; the free-form `processing_info` dict is not needed by the
verified properties and is elided. -/
structure DocumentVersion where
  version_id : String
  document_id : String
  version_number : VersionNum
  content_hash : String
  file_path : String
  original_filename : String
  file_size : Nat
  created_at : String
  status : VersionStatus
  metadata : List (String × String)
  parent_version : Option String := none
  deriving Repr, DecidableEq

/-- One entry of `DocumentVersionManager.documents`
(`{document_id, original_filename, created_at, latest_version, version_count}`). -/
structure DocumentInfo where
  document_id : String
  original_filename : String
  created_at : String
  latest_version : String
  version_count : Nat
  deriving Repr, DecidableEq

/-- The in-memory state of `DocumentVersionManager`: the two insertion-ordered
dicts `self.versions : version_id → DocumentVersion` and
`self.documents : document_id → info`. -/
structure ManagerState where
  versions : List (String × DocumentVersion)
  documents : List (String × DocumentInfo)
  deriving Repr, DecidableEq

/-- Insertion-ordered dict write `d[k] = v`: replace in place if the key is
present, else append. -/
def dictInsert {α : Type} (l : List (String × α)) (k : String) (v : α) :
    List (String × α) :=
  if l.any (fun p => p.1 == k) then
    l.map (fun p => if p.1 == k then (k, v) else p)
  else l ++ [(k, v)]

/-- `DocumentVersionManager.find_version_by_hash`: first stored version (in
dict iteration order) whose `content_hash` matches, else `None`. -/
def find_version_by_hash (s : ManagerState) (contentHash : String) :
    Option DocumentVersion :=
  (s.versions.find? (fun p => p.2.content_hash == contentHash)).map (fun p => p.2)

/-- Strict lexicographic order on `(major, minor, patch)` triples — the order
Python's tuple `<` (and hence `max` over tuples) uses. -/
def lexLt (a b : Int × Int × Int) : Prop :=
  a.1 < b.1 ∨ (a.1 = b.1 ∧ (a.2.1 < b.2.1 ∨ (a.2.1 = b.2.1 ∧ a.2.2 < b.2.2)))

instance (a b : Int × Int × Int) : Decidable (lexLt a b) := by
  unfold lexLt; infer_instance

/-- Python's `max` of two tuples: keeps the left argument unless the right is
strictly greater. -/
def lexMax (a b : Int × Int × Int) : Int × Int × Int :=
  if lexLt a b then b else a

/-- The versions of one document:
`[v for v in self.versions.values() if v.document_id == document_id]`. -/
def docVersions (s : ManagerState) (documentId : String) : List DocumentVersion :=
  (s.versions.map (fun p => p.2)).filter (fun v => v.document_id == documentId)

/-- The parseable `(major, minor, patch)` version numbers of a version list
(the `version_numbers` accumulator of `_get_next_version_number`). -/
def parsedNumbers (vs : List DocumentVersion) : List (Int × Int × Int) :=
  vs.filterMap (fun v => v.version_number)

/-- `DocumentVersionManager._get_next_version_number`: `1.0.0` for an unknown
document or when no stored version has a parseable number; otherwise the
lexicographic maximum of the parseable numbers with the patch component
incremented. -/
def get_next_version_number (s : ManagerState) (documentId : String) :
    Int × Int × Int :=
  if (s.documents.find? (fun p => p.1 == documentId)).isNone then (1, 0, 0)
  else
    let vs := docVersions s documentId
    if vs.isEmpty then (1, 0, 0)
    else
      match parsedNumbers vs with
      | [] => (1, 0, 0)
      | n :: rest =>
          let m := rest.foldl lexMax n
          (m.1, m.2.1, m.2.2 + 1)

/-- Environment inputs of one `create_document_version` call: the values the
source obtains from the file system and the wall clock
(`_calculate_content_hash`, `_generate_document_id`, `_generate_version_id`,
`Path(file_path).stat().st_size`, `datetime.now().isoformat()`). -/
structure CreateEnv where
  contentHash : String
  docId : String
  versionId : String
  fileSize : Nat
  now : String
  deriving Repr, DecidableEq

/-- `DocumentVersionManager.create_document_version`.  Returns the produced
(or found) `DocumentVersion` together with the updated manager state.  The
dedup branch returns the existing version without touching either dict;
otherwise a fresh version is stored and the document entry is created or its
`latest_version` / `version_count` fields updated. -/
def create_document_version (s : ManagerState) (env : CreateEnv)
    (file_path original_filename : String) (metadata : List (String × String))
    (parent_version : Option String) : DocumentVersion × ManagerState :=
  let content_hash := env.contentHash
  match find_version_by_hash s content_hash with
  | some existing => (existing, s)
  | none =>
      let document_id := env.docId
      let version_id := env.versionId
      let vnum := get_next_version_number s document_id
      let version : DocumentVersion :=
        { version_id := version_id
          document_id := document_id
          version_number := some vnum
          content_hash := content_hash
          file_path := file_path
          original_filename := original_filename
          file_size := env.fileSize
          created_at := env.now
          status := VersionStatus.active
          metadata := metadata
          parent_version := parent_version }
      let versions' := dictInsert s.versions version_id version
      let documents' :=
        match s.documents.find? (fun p => p.1 == document_id) with
        | none =>
            dictInsert s.documents document_id
              { document_id := document_id
                original_filename := original_filename
                created_at := env.now
                latest_version := version_id
                version_count := 1 }
        | some (_, info) =>
            dictInsert s.documents document_id
              { info with latest_version := version_id
                          version_count := info.version_count + 1 }
      (version, { versions := versions', documents := documents' })

end Versioning

/-! ## Chunking — `chunking_system.py` -/

namespace Chunking

/-- `ChunkConfig` (defaults from the source).  The numeric fields are natural
numbers; the pipeline only ever constructs non-negative configurations.  In
the one place where Python may compute a negative intermediate value
(`end_index - chunk_overlap`), truncated `Nat` subtraction agrees with the
source because the value is immediately clamped by
`max(·, start_index + 1)` with `start_index + 1 ≥ 1`. -/
structure ChunkConfig where
  chunk_size : Nat := 1000
  chunk_overlap : Nat := 200
  preserve_structure : Bool := true
  min_chunk_size : Nat := 100
  deriving Repr, DecidableEq

/-- A produced `Chunk`.  Text is a list of characters; the metadata fields
the chunkers write (`chunk_index`, `total_chunks`) are inlined. -/
structure Chunk where
  text : List Char
  start_index : Nat
  end_index : Nat
  chunk_id : String
  chunk_index : Nat
  total_chunks : Option Nat := none
  deriving Repr, DecidableEq

/-- Zero padding of `chunk_index:04d` in `_create_chunk_id`. -/
def pad4 (n : Nat) : String :=
  if n < 10 then "000" ++ toString n
  else if n < 100 then "00" ++ toString n
  else if n < 1000 then "0" ++ toString n
  else toString n

/-- `BaseChunker._create_chunk_id`: `f"{doc_filename}__chunk_{chunk_index:04d}"`. -/
def create_chunk_id (doc_filename : String) (chunk_index : Nat) : String :=
  doc_filename ++ "__chunk_" ++ pad4 chunk_index

/-- The whitespace set of Python's `str.strip()` (restricted to the ASCII
whitespace characters). -/
def pyWhitespace (c : Char) : Bool :=
  c == ' ' || c == '\t' || c == '\n' || c == '\r' ||
    c == Char.ofNat 11 || c == Char.ofNat 12

/-- Python `str.strip()`: drop whitespace from both ends. -/
def pyStrip (l : List Char) : List Char :=
  ((l.dropWhile pyWhitespace).reverse.dropWhile pyWhitespace).reverse

/-- Python `text[s:e]` for `0 ≤ s ≤ e ≤ len(text)`. -/
def pySlice (text : List Char) (s e : Nat) : List Char :=
  (text.take e).drop s

/-- Python `text.rfind(c, s, e)`: the greatest index `i` with `s ≤ i < e` and
`text[i] = c`, or `-1` if there is none. -/
def rfind (text : List Char) (c : Char) (s e : Nat) : Int :=
  match ((List.range e).filter
      (fun i => decide (s ≤ i) && (text.get? i == some c))).getLast? with
  | some i => (i : Int)
  | none => -1

/-- `min(start_index + self.config.chunk_size, text_length)`. -/
def rawEnd (cfg : ChunkConfig) (textLength start : Nat) : Nat :=
  min (start + cfg.chunk_size) textLength

/-- The `end_index` one iteration of `FixedSizeChunker.chunk_text`'s loop
computes: the raw window end, adjusted backwards to the last newline or space
when `preserve_structure` holds, the window does not reach the end of the
text, and the break point is more than `min_chunk_size` past the window
start. -/
def endIndex (cfg : ChunkConfig) (text : List Char) (start : Nat) : Nat :=
  let e := rawEnd cfg text.length start
  if decide (e < text.length) && cfg.preserve_structure then
    let last_newline := rfind text '\n' start e
    let last_space := rfind text ' ' start e
    let break_point := max last_newline last_space
    if break_point > (start : Int) + (cfg.min_chunk_size : Int) then
      (break_point + 1).toNat
    else e
  else e

/-- `start_index = max(end_index - self.config.chunk_overlap, start_index + 1)`,
the update at the bottom of the fixed-size chunking loop. -/
def nextStart (cfg : ChunkConfig) (text : List Char) (start : Nat) : Nat :=
  max (endIndex cfg text start - cfg.chunk_overlap) (start + 1)

/-- The `while start_index < text_length` loop of
`FixedSizeChunker.chunk_text`: emit the stripped window as a chunk when it is
at least `min_chunk_size` long, then restart at `nextStart`.  Lean accepts
this definition as total because `nextStart` strictly increases. -/
def chunkLoop (cfg : ChunkConfig) (text : List Char) (filename : String)
    (start chunk_index : Nat) : List Chunk :=
  if h : start < text.length then
    let e := endIndex cfg text start
    let ctext := pyStrip (pySlice text start e)
    if cfg.min_chunk_size ≤ ctext.length then
      { text := ctext, start_index := start, end_index := e,
        chunk_id := create_chunk_id filename chunk_index,
        chunk_index := chunk_index } ::
        chunkLoop cfg text filename (nextStart cfg text start) (chunk_index + 1)
    else
      chunkLoop cfg text filename (nextStart cfg text start) chunk_index
  else []
termination_by text.length - start
decreasing_by
  all_goals
    have hlt : start < nextStart cfg text start := by unfold nextStart; omega
    omega

/-- The final pass of `chunk_text` writing
`chunk.metadata['total_chunks'] = len(chunks)`. -/
def setTotal (n : Nat) (c : Chunk) : Chunk := { c with total_chunks := some n }

/-- `FixedSizeChunker.chunk_text`: a text no longer than `chunk_size` is
returned whole as a single chunk; otherwise the windowed loop runs and every
produced chunk is annotated with the total count. -/
def chunk_text (cfg : ChunkConfig) (text : List Char) (filename : String) :
    List Chunk :=
  if text.length ≤ cfg.chunk_size then
    [{ text := text, start_index := 0, end_index := text.length,
       chunk_id := create_chunk_id filename 0, chunk_index := 0,
       total_chunks := some 1 }]
  else
    let chunks := chunkLoop cfg text filename 0 0
    chunks.map (setTotal chunks.length)

/-- `ChunkingSystem.chunk_document` specialised to the `fixed_size` strategy
(the dispatch table selects `FixedSizeChunker` there): empty or
whitespace-only input yields no chunks, and the final validation pass keeps
only the chunks whose stripped text is at least `min_chunk_size` long. -/
def chunk_document_fixed (cfg : ChunkConfig) (text : List Char)
    (filename : String) : List Chunk :=
  if text.isEmpty || (pyStrip text).isEmpty then []
  else
    (chunk_text cfg text filename).filter
      (fun c => cfg.min_chunk_size ≤ (pyStrip c.text).length)

end Chunking

/-! ## Validation — `validation_system.py`

Each validator is a straight-line sequence of rule blocks.  A block inspects
the environment (file system, extracted text, chunk metadata, external
libraries), appends at most one `ValidationIssue`, and increments
`passed_checks` by at most one.  We model each environment inspection by an
enumerated outcome value with one constructor per source branch, and keep the
issue/score aggregation exactly as in the source.  All rules carry their
default `enabled = True`, so the `if rule.enabled` guards are always taken. -/

namespace Validation

/-- `ValidationSeverity`. -/
inductive Severity
  | info | warning | errorSev | critical
  deriving Repr, DecidableEq

/-- `ValidationIssue`, reduced to the fields the properties depend on
(`rule_name` and `severity`; the message / details / location strings are
environment text). -/
structure ValidationIssue where
  rule_name : String
  severity : Severity
  deriving Repr, DecidableEq

/-- `ValidationResult`.  `score` is an exact rational in place of the Python
float; `validation_level` and `processing_time` are elided. -/
structure ValidationResult where
  is_valid : Bool
  issues : List ValidationIssue
  score : ℚ
  total_checks : Nat
  passed_checks : Nat
  failed_checks : Nat
  warnings : Nat
  errors : Nat
  deriving Repr, DecidableEq

/-- `len([i for i in issues if i.severity == s])`. -/
def countSev (issues : List ValidationIssue) (s : Severity) : Nat :=
  (issues.filter (fun i => i.severity == s)).length

/-- The tail computation shared verbatim by the four validators:
`score = passed/total if total > 0 else 0.0`,
`is_valid = not (has_critical or has_errors)`, and the issue counters. -/
def mkResult (issues : List ValidationIssue) (total passed : Nat) :
    ValidationResult :=
  let score : ℚ := if total > 0 then (passed : ℚ) / (total : ℚ) else 0
  let has_critical := issues.any (fun i => i.severity == Severity.critical)
  let has_errors := issues.any (fun i => i.severity == Severity.errorSev)
  { is_valid := !(has_critical || has_errors)
    issues := issues
    score := score
    total_checks := total
    passed_checks := passed
    failed_checks := total - passed
    warnings := countSev issues Severity.warning
    errors := countSev issues Severity.errorSev }

/-- One rule block's outcome: the issues it appends and the number of passed
checks it adds (0 or 1). -/
abbrev RuleOut := List ValidationIssue × Nat

/-- Sequential composition of rule blocks. -/
def comb (a b : RuleOut) : RuleOut := (a.1 ++ b.1, a.2 + b.2)

/-! ### `DocumentValidator.validate_file` -/

/-- Outcome of `open(file_path, 'rb'); f.read(1)` in the `file_accessible`
rule. -/
inductive AccessOutcome
  | ok | permissionDenied | otherFailure
  deriving Repr, DecidableEq

/-- Outcome of comparing `file_path.stat().st_size` against the
`min_size`/`max_size` rule parameters. -/
inductive SizeOutcome
  | tooSmall | tooBig | ok
  deriving Repr, DecidableEq

/-- Outcome of the `chardet` call in the `encoding_detection` rule. -/
inductive EncodingOutcome
  | confident | lowConfidence | chardetMissing | failed
  deriving Repr, DecidableEq

/-- Everything `validate_file` observes about the file system, one field per
source condition. -/
structure FileInput where
  fileExists : Bool
  access : AccessOutcome
  size : SizeOutcome
  mimeAllowed : Bool
  extAllowed : Bool
  filenameOk : Bool
  mimeIsText : Bool
  encoding : EncodingOutcome
  deriving Repr, DecidableEq

def ruleFileExists (inp : FileInput) : RuleOut :=
  if inp.fileExists then ([], 1)
  else ([{ rule_name := "file_exists", severity := Severity.critical }], 0)

def ruleFileAccessible (inp : FileInput) : RuleOut :=
  match inp.access with
  | AccessOutcome.ok => ([], 1)
  | AccessOutcome.permissionDenied =>
      ([{ rule_name := "file_accessible", severity := Severity.critical }], 0)
  | AccessOutcome.otherFailure =>
      ([{ rule_name := "file_accessible", severity := Severity.errorSev }], 0)

def ruleFileSize (inp : FileInput) : RuleOut :=
  match inp.size with
  | SizeOutcome.ok => ([], 1)
  | _ => ([{ rule_name := "file_size", severity := Severity.warning }], 0)

def ruleFileType (inp : FileInput) : RuleOut :=
  if inp.mimeAllowed then ([], 1)
  else ([{ rule_name := "file_type", severity := Severity.errorSev }], 0)

def ruleFileExtension (inp : FileInput) : RuleOut :=
  if inp.extAllowed then ([], 1)
  else ([{ rule_name := "file_extension", severity := Severity.warning }], 0)

def ruleFilenameFormat (inp : FileInput) : RuleOut :=
  if inp.filenameOk then ([], 1)
  else ([{ rule_name := "filename_format", severity := Severity.info }], 0)

/-- `encoding_detection` runs only for `text/*` MIME types; a missing
`chardet` counts as passed. -/
def ruleEncodingDetection (inp : FileInput) : RuleOut :=
  if inp.mimeIsText then
    match inp.encoding with
    | EncodingOutcome.confident => ([], 1)
    | EncodingOutcome.chardetMissing => ([], 1)
    | EncodingOutcome.lowConfidence =>
        ([{ rule_name := "encoding_detection", severity := Severity.warning }], 0)
    | EncodingOutcome.failed =>
        ([{ rule_name := "encoding_detection", severity := Severity.errorSev }], 0)
  else ([], 0)

/-- `DocumentValidator.validate_file`.  A missing file short-circuits with the
hard-coded `is_valid=False, score=0.0` result after only the `file_exists`
rule has run; otherwise all seven rule blocks run in source order.
`total_checks = len(self.rules) = 7`. -/
def validate_file (inp : FileInput) : ValidationResult :=
  let r1 := ruleFileExists inp
  if inp.fileExists = false then
    { is_valid := false
      issues := r1.1
      score := 0
      total_checks := 7
      passed_checks := r1.2
      failed_checks := 7 - r1.2
      warnings := countSev r1.1 Severity.warning
      errors := countSev r1.1 Severity.errorSev }
  else
    let acc := comb r1 (comb (ruleFileAccessible inp) (comb (ruleFileSize inp)
      (comb (ruleFileType inp) (comb (ruleFileExtension inp)
        (comb (ruleFilenameFormat inp) (ruleEncodingDetection inp))))))
    mkResult acc.1 7 acc.2

/-! ### `ContentValidator.validate_content` -/

/-- Outcome of the `content_length` bounds check. -/
inductive LenOutcome
  | tooShort | tooLong | ok
  deriving Repr, DecidableEq

/-- Outcome of the `text_quality` ratio checks (`if word_ratio < min … elif
special_chars_ratio > max … else`). -/
inductive QualityOutcome
  | lowWordRatio | highSpecialChars | ok
  deriving Repr, DecidableEq

/-- Outcome of the `langdetect` call: all three branches count as passed and
the first/last additionally record an INFO issue. -/
inductive LangOutcome
  | detected | importMissing | failed
  deriving Repr, DecidableEq

/-- Everything `validate_content` observes about the extracted text. -/
structure ContentInput where
  emptyContent : Bool
  lenOut : LenOutcome
  quality : QualityOutcome
  lang : LangOutcome
  encodingOk : Bool
  emptyRatioHigh : Bool
  deriving Repr, DecidableEq

def ruleContentNotEmpty (inp : ContentInput) : RuleOut :=
  if inp.emptyContent then
    ([{ rule_name := "content_not_empty", severity := Severity.critical }], 0)
  else ([], 1)

def ruleContentLength (inp : ContentInput) : RuleOut :=
  match inp.lenOut with
  | LenOutcome.ok => ([], 1)
  | _ => ([{ rule_name := "content_length", severity := Severity.warning }], 0)

def ruleTextQuality (inp : ContentInput) : RuleOut :=
  match inp.quality with
  | QualityOutcome.ok => ([], 1)
  | _ => ([{ rule_name := "text_quality", severity := Severity.warning }], 0)

def ruleLanguageDetection (inp : ContentInput) : RuleOut :=
  match inp.lang with
  | LangOutcome.detected =>
      ([{ rule_name := "language_detection", severity := Severity.info }], 1)
  | LangOutcome.importMissing => ([], 1)
  | LangOutcome.failed =>
      ([{ rule_name := "language_detection", severity := Severity.info }], 1)

def ruleEncodingConsistency (inp : ContentInput) : RuleOut :=
  if inp.encodingOk then ([], 1)
  else ([{ rule_name := "encoding_consistency", severity := Severity.errorSev }], 0)

def ruleStructureIntegrity (inp : ContentInput) : RuleOut :=
  if inp.emptyRatioHigh then
    ([{ rule_name := "structure_integrity", severity := Severity.warning }], 0)
  else ([], 1)

/-- `ContentValidator.validate_content`.  Empty content short-circuits with
the hard-coded `is_valid=False, score=0.0, warnings=0, errors=0` result;
otherwise the six rule blocks run in source order.
`total_checks = len(self.rules) = 6`. -/
def validate_content (inp : ContentInput) : ValidationResult :=
  let r1 := ruleContentNotEmpty inp
  if inp.emptyContent then
    { is_valid := false
      issues := r1.1
      score := 0
      total_checks := 6
      passed_checks := r1.2
      failed_checks := 6 - r1.2
      warnings := 0
      errors := 0 }
  else
    let acc := comb r1 (comb (ruleContentLength inp) (comb (ruleTextQuality inp)
      (comb (ruleLanguageDetection inp) (comb (ruleEncodingConsistency inp)
        (ruleStructureIntegrity inp)))))
    mkResult acc.1 6 acc.2

/-! ### `ChunkValidator.validate_chunks` -/

/-- Outcome of the `chunk_size_limits` comparison of `len(chunk.text)`
against `min_chunk_size` and `chunk_size * 1.5`. -/
inductive ChunkSizeOutcome
  | tooSmall | tooBig | ok
  deriving Repr, DecidableEq

/-- Everything `validate_chunks` observes about one chunk:

* `textEmpty`: `not chunk.text or not chunk.text.strip()`;
* `size`: the `chunk_size_limits` comparison outcome;
* `otherMetaKeys`: whether `chunk.metadata` holds keys besides the two
  positions (so the dict can be truthy without them);
* `startPos` / `endPos`: `chunk.metadata.get('start_position')` /
  `('end_position')`, integer character offsets when present;
* `coherencePasses`: whether the `content_coherence` heuristic passes
  (its failure records an INFO issue). -/
structure VChunk where
  textEmpty : Bool
  size : ChunkSizeOutcome
  otherMetaKeys : Bool
  startPos : Option Int
  endPos : Option Int
  coherencePasses : Bool
  deriving Repr, DecidableEq

/-- Truthiness of `chunk.metadata` (the dict is non-empty). -/
def hasMeta (c : VChunk) : Bool :=
  c.otherMetaKeys || c.startPos.isSome || c.endPos.isSome

def ruleChunkNotEmpty (c : VChunk) : RuleOut :=
  if c.textEmpty then
    ([{ rule_name := "chunk_not_empty", severity := Severity.critical }], 0)
  else ([], 1)

def ruleChunkSizeLimits (c : VChunk) : RuleOut :=
  match c.size with
  | ChunkSizeOutcome.ok => ([], 1)
  | _ => ([{ rule_name := "chunk_size_limits", severity := Severity.warning }], 0)

/-- `metadata_consistency`: an empty metadata dict is a WARNING, a missing
`start_position`/`end_position` field an ERROR. -/
def ruleMetadataConsistency (c : VChunk) : RuleOut :=
  if !hasMeta c then
    ([{ rule_name := "metadata_consistency", severity := Severity.warning }], 0)
  else if c.startPos.isNone || c.endPos.isNone then
    ([{ rule_name := "metadata_consistency", severity := Severity.errorSev }], 0)
  else ([], 1)

def ruleContentCoherence (c : VChunk) : RuleOut :=
  if c.coherencePasses then ([], 1)
  else ([{ rule_name := "content_coherence", severity := Severity.info }], 0)

/-- The four per-chunk rule blocks, in source order. -/
def perChunk (c : VChunk) : RuleOut :=
  comb (ruleChunkNotEmpty c) (comb (ruleChunkSizeLimits c)
    (comb (ruleMetadataConsistency c) (ruleContentCoherence c)))

/-- One iteration of the `overlap_validation` loop over consecutive chunks.
When either position is absent the iteration neither passes nor records an
issue.  The ±20% tolerance is computed exactly
(`tolerance = expected_overlap * 0.2`). -/
def pairOutcome (cfg : Chunking.ChunkConfig) (cur next : VChunk) : RuleOut :=
  match cur.endPos, next.startPos with
  | some current_end, some next_start =>
      if next_start < current_end then
        let overlap : Int := current_end - next_start
        let expected : Int := (cfg.chunk_overlap : Int)
        let tolerance : ℚ := (expected : ℚ) * (1 / 5)
        if |(overlap : ℚ) - (expected : ℚ)| > tolerance then
          ([{ rule_name := "overlap_validation", severity := Severity.warning }], 0)
        else ([], 1)
      else
        if cfg.chunk_overlap > 0 then
          ([{ rule_name := "overlap_validation", severity := Severity.warning }], 0)
        else ([], 1)
  | _, _ => ([], 0)

/-- `ChunkValidator.validate_chunks`.  Zero chunks short-circuits with a
CRITICAL issue and `score=0.0`; otherwise the four per-chunk rule blocks run
for every chunk and the overlap rule for every consecutive pair.
`total_checks = len(self.rules) * len(chunks) = 6 * len(chunks)` (for a
non-empty list). -/
def validate_chunks (cfg : Chunking.ChunkConfig) (chunks : List VChunk) :
    ValidationResult :=
  let total := if chunks.isEmpty then 6 else 6 * chunks.length
  if chunks.isEmpty then
    { is_valid := false
      issues := [{ rule_name := "chunk_not_empty", severity := Severity.critical }]
      score := 0
      total_checks := total
      passed_checks := 0
      failed_checks := total
      warnings := 0
      errors := 0 }
  else
    let per := chunks.map perChunk
    let pairs := (chunks.zip chunks.tail).map (fun p => pairOutcome cfg p.1 p.2)
    let issues := (per.map (fun r => r.1)).flatten ++ (pairs.map (fun r => r.1)).flatten
    let passed := (per.map (fun r => r.2)).sum + (pairs.map (fun r => r.2)).sum
    mkResult issues total passed

/-! ### `MetadataValidator.validate_metadata` -/

/-- Outcome of one of the optional-list format rules (`email_format`,
`phone_format`, `url_format`): the field is absent (or not a list), all
entries match the pattern, or some entry fails it. -/
inductive FormatOutcome
  | absent | allValid | someInvalid
  deriving Repr, DecidableEq

/-- Everything `validate_metadata` observes about the metadata dict. -/
structure MetadataInput where
  missingRequired : Bool
  typeErrors : Bool
  emails : FormatOutcome
  phones : FormatOutcome
  urls : FormatOutcome
  completenessLow : Bool
  deriving Repr, DecidableEq

def ruleRequiredFields (inp : MetadataInput) : RuleOut :=
  if inp.missingRequired then
    ([{ rule_name := "required_fields", severity := Severity.errorSev }], 0)
  else ([], 1)

def ruleFieldTypes (inp : MetadataInput) : RuleOut :=
  if inp.typeErrors then
    ([{ rule_name := "field_types", severity := Severity.errorSev }], 0)
  else ([], 1)

def ruleFormat (ruleName : String) (o : FormatOutcome) : RuleOut :=
  match o with
  | FormatOutcome.someInvalid =>
      ([{ rule_name := ruleName, severity := Severity.warning }], 0)
  | _ => ([], 1)

/-- `completeness`: possibly an INFO issue, and always a passed check
(`passed_checks += 1  # Não é falha`). -/
def ruleCompleteness (inp : MetadataInput) : RuleOut :=
  if inp.completenessLow then
    ([{ rule_name := "completeness", severity := Severity.info }], 1)
  else ([], 1)

/-- `MetadataValidator.validate_metadata`: the six rule blocks in source
order; `total_checks = len(self.rules) = 6`. -/
def validate_metadata (inp : MetadataInput) : ValidationResult :=
  let acc := comb (ruleRequiredFields inp) (comb (ruleFieldTypes inp)
    (comb (ruleFormat "email_format" inp.emails)
      (comb (ruleFormat "phone_format" inp.phones)
        (comb (ruleFormat "url_format" inp.urls) (ruleCompleteness inp)))))
  mkResult acc.1 6 acc.2

/-- An issue counts against validity when its severity is ERROR or CRITICAL. -/
def isErrCrit (i : ValidationIssue) : Bool :=
  i.severity == Severity.errorSev || i.severity == Severity.critical

/-- `is_valid` as the spec states it: no ERROR or CRITICAL issue. -/
def noErrCrit (r : ValidationResult) : Bool :=
  !(r.issues.any isErrCrit)

/-- The score contract of a `ValidationResult`: `score` is
`passed_checks / total_checks` (in Lean, `x / 0 = 0`, which matches the
source's `score = 0.0` fallback for `total_checks = 0`) and lies in `[0,1]`. -/
def scoreOk (r : ValidationResult) : Prop :=
  r.score = (r.passed_checks : ℚ) / (r.total_checks : ℚ) ∧
    0 ≤ r.score ∧ r.score ≤ 1

end Validation

/-! ## Progress tracking — `progress_tracking.py`

Wall-clock timestamps are abstracted to a `tick` counter carried by the
tracker state; `time.time()` is always positive, so Python's
`not batch.completed_at` is `completed_at is None`, modelled by an
`Option Nat` field.  The background persistence queue, the metrics dict and
notification messages are side effects without bearing on the verified
properties and are elided; notifications keep their type and their
`document_id` / `batch_id` attribution. -/

namespace Tracking

/-- `ProcessingStage`. -/
inductive Stage
  | upload | parsing | chunking | metadata_extraction | validation
  | versioning | storage | completed | failed
  deriving Repr, DecidableEq

/-- The members of `ProcessingStage`, in declaration order
(`len(ProcessingStage) = 9`). -/
def allStages : List Stage :=
  [Stage.upload, Stage.parsing, Stage.chunking, Stage.metadata_extraction,
   Stage.validation, Stage.versioning, Stage.storage, Stage.completed,
   Stage.failed]

/-- `ProcessingStatus`. -/
inductive Status
  | queued | in_progress | completed | failed | cancelled
  deriving Repr, DecidableEq

/-- `NotificationType`. -/
inductive NotificationType
  | info | success | warning | errorNote
  deriving Repr, DecidableEq

/-- A `Notification`, reduced to type and attribution (id, title, message,
timestamp and read flag do not bear on the verified properties). -/
structure NotificationM where
  ntype : NotificationType
  document_id : Option String := none
  batch_id : Option String := none
  deriving Repr, DecidableEq

/-- `DocumentProgress`.  The `stages` dict is modelled as a function from
stages to the status of their `StageProgress` entry (`none` when the stage
was never updated); the per-stage timestamps, percentages and details do not
bear on the verified properties.  `metadata['batch_id']` is inlined as
`batch_id`. -/
structure DocumentProgress where
  document_id : String
  filename : String
  status : Status
  current_stage : Stage
  stages : Stage → Option Status
  batch_id : Option String := none

/-- `DocumentProgress.update_stage`: create the stage entry with the default
`IN_PROGRESS` status if absent, then overwrite its status when one is given. -/
def updateStage (doc : DocumentProgress) (stage : Stage)
    (status : Option Status) : DocumentProgress :=
  let cur := match doc.stages stage with
    | none => Status.in_progress
    | some st => st
  let newStatus := match status with
    | none => cur
    | some st => st
  { doc with
    current_stage := stage
    stages := fun s => if s = stage then some newStatus else doc.stages s }

/-- `completed_stages` of `DocumentProgress.overall_progress`: the number of
stage entries whose status is COMPLETED.  Counting over the (finite) stage
enum is the same as iterating the dict, whose keys are stages. -/
def completedStageCount (doc : DocumentProgress) : Nat :=
  (allStages.filter (fun s => doc.stages s == some Status.completed)).length

/-- `total_stages = len(ProcessingStage) - 2`. -/
def totalStages : Nat := allStages.length - 2

/-- `DocumentProgress.overall_progress`:
`(completed_stages / total_stages) * 100 if total_stages > 0 else 0`. -/
def overall_progress (doc : DocumentProgress) : ℚ :=
  if totalStages > 0 then
    ((completedStageCount doc : ℚ) / (totalStages : ℚ)) * 100
  else 0

/-- `BatchProgress`: the member documents are shared references into the
tracker's `documents` dict, modelled by keeping their ids. -/
structure BatchProgress where
  batch_id : String
  total_documents : Nat
  docIds : List String
  completed_at : Option Nat := none

/-- The tracker's mutable state (`documents`, `batches`, `notifications`)
plus the abstract clock. -/
structure TrackerState where
  documents : List (String × DocumentProgress)
  batches : List (String × BatchProgress)
  notifications : List NotificationM
  tick : Nat

/-- Overwrite the value stored under an existing key. -/
def dictUpdate {α : Type} (l : List (String × α)) (k : String) (f : α → α) :
    List (String × α) :=
  l.map (fun p => if p.1 == k then (k, f p.2) else p)

/-- `BatchProgress.completed_documents`, computed from the referenced
documents. -/
def completedDocuments (s : TrackerState) (b : BatchProgress) : Nat :=
  (b.docIds.filter (fun d =>
    match s.documents.find? (fun p => p.1 == d) with
    | some p => p.2.status == Status.completed
    | none => false)).length

/-- `BatchProgress.failed_documents`. -/
def failedDocuments (s : TrackerState) (b : BatchProgress) : Nat :=
  (b.docIds.filter (fun d =>
    match s.documents.find? (fun p => p.1 == d) with
    | some p => p.2.status == Status.failed
    | none => false)).length

/-- `BatchProgress.is_completed`: `completed + failed >= total`. -/
def isBatchCompleted (s : TrackerState) (b : BatchProgress) : Bool :=
  b.total_documents ≤ completedDocuments s b + failedDocuments s b

/-- One `update_document_progress(document_id, stage, progress, details,
status)` call (the `progress` percentage and `details` payload do not bear on
the verified properties). -/
structure UpdateEvent where
  document_id : String
  stage : Stage
  status : Option Status := none
  deriving Repr, DecidableEq

/-- The document-status transition block of `update_document_progress`, after
`doc.update_stage` has run: a COMPLETED update at the COMPLETED stage
finalises the document with a SUCCESS notification, a FAILED status finalises
it with an ERROR notification, and the first non-UPLOAD update moves a QUEUED
document to IN_PROGRESS. -/
def docTransition (doc : DocumentProgress) (e : UpdateEvent) :
    DocumentProgress × List NotificationM :=
  if e.status == some Status.completed && e.stage == Stage.completed then
    ({ doc with status := Status.completed },
     [{ ntype := NotificationType.success, document_id := some e.document_id }])
  else if e.status == some Status.failed then
    ({ doc with status := Status.failed },
     [{ ntype := NotificationType.errorNote, document_id := some e.document_id }])
  else if doc.status == Status.queued && !(e.stage == Stage.upload) then
    ({ doc with status := Status.in_progress }, [])
  else (doc, [])

/-- Stamping a batch completed: `batch.completed_at = time.time()` plus the
batch-completion notification. -/
def stampBatch (s : TrackerState) (bid : String) : TrackerState :=
  { s with
    batches := dictUpdate s.batches bid
      (fun b => { b with completed_at := some s.tick })
    notifications := s.notifications ++
      [{ ntype := NotificationType.success, batch_id := some bid }] }

/-- The batch-completion block at the end of `update_document_progress`:
when the updated document belongs to a known batch that is now completed and
whose `completed_at` is still unset, stamp it and emit the single
batch-completion notification. -/
def batchPhase (s : TrackerState) (batchId : Option String) : TrackerState :=
  match batchId with
  | none => s
  | some bid =>
      match s.batches.find? (fun p => p.1 == bid) with
      | none => s
      | some (_, batch) =>
          if isBatchCompleted s batch && batch.completed_at.isNone then
            stampBatch s bid
          else s

/-- The document-map and notification update of one
`update_document_progress` call, before the batch-completion check. -/
def applyDocUpdate (s : TrackerState) (e : UpdateEvent)
    (doc : DocumentProgress) (notifs : List NotificationM) : TrackerState :=
  { s with
    documents := dictUpdate s.documents e.document_id (fun _ => doc)
    notifications := s.notifications ++ notifs }

/-- `ProgressTracker.update_document_progress`.  An unknown document id is a
no-op (logged warning); otherwise the document's stage entry and status are
updated, document-level notifications are emitted, and the batch-completion
check runs. -/
def update_document_progress (s : TrackerState) (e : UpdateEvent) :
    TrackerState :=
  match s.documents.find? (fun p => p.1 == e.document_id) with
  | none => { s with tick := s.tick + 1 }
  | some (_, doc0) =>
      let doc1 := updateStage doc0 e.stage e.status
      let td := docTransition doc1 e
      let s1 := applyDocUpdate s e td.1 td.2
      let s2 := batchPhase s1 td.1.batch_id
      { s2 with tick := s2.tick + 1 }

/-- `ProgressTracker.start_document_processing`: register a fresh document in
QUEUED status at the UPLOAD stage (the generated uuid is an input). -/
def start_document_processing (s : TrackerState) (docId filename : String)
    (batchId : Option String) : TrackerState :=
  { s with
    documents := s.documents ++
      [(docId,
        { document_id := docId, filename := filename, status := Status.queued
          current_stage := Stage.upload, stages := fun _ => none
          batch_id := batchId })] }

/-- The batch-completion notifications attributed to one batch. -/
def batchCompletionCount (s : TrackerState) (bid : String) : Nat :=
  (s.notifications.filter (fun n =>
    n.ntype == NotificationType.success && n.batch_id == some bid)).length

/-- The `completed_at` field of a stored batch. -/
def batchCompletedAt (s : TrackerState) (bid : String) : Option Nat :=
  match s.batches.find? (fun p => p.1 == bid) with
  | some p => p.2.completed_at
  | none => none

/-- Whether a batch id is present in the tracker's `batches` dict. -/
def batchKnown (s : TrackerState) (bid : String) : Bool :=
  (s.batches.find? (fun p => p.1 == bid)).isSome

end Tracking

/-! ## Pipeline orchestrator — `ingestion_pipeline.py`

`IngestionPipeline.ingest_document` is a `try` block sequencing the stages,
with a top-level `except` converting any raised exception into a failed
`IngestionResult`.  We embed the `try` body as a function returning
`Except String IngestionResultM` — `Except.error m` standing for an escaped
exception with message `m` — paired with the list of
`update_document_progress` calls it made, and `ingest_document` as the body
wrapped in the handler.  Each fallible collaborator call is an
`Except String _` environment input; `_check_for_duplicate` and
`_cleanup_old_versions` swallow their own exceptions in the source and so
cannot fail here. -/

namespace Pipeline

/-- The `IngestionConfig` switches that steer control flow in
`ingest_document`. -/
structure PipelineConfig where
  enable_versioning : Bool := true
  enable_validation : Bool := true
  enable_tracking : Bool := true
  enable_deduplication : Bool := true
  stop_on_validation_error : Bool := false
  deriving Repr, DecidableEq

/-- The aggregate validation outcome `ingest_document` consumes
(`is_pipeline_valid`; the scores and issue lists do not steer control flow
apart from it). -/
structure ValidationSummary where
  isPipelineValid : Bool
  deriving Repr, DecidableEq

/-- Outcomes of the collaborator calls inside the `try` block, in call order.
`Except.error m` models the call raising an exception whose `str` is `m`. -/
structure PipelineEnv where
  trackingId : String
  parse : Except String Unit
  tempFileProvided : Bool
  dedupHit : Option String
  dedupChunksCount : Nat
  extract : Except String Unit
  chunk : Except String Nat
  validate : Except String ValidationSummary
  createVersion : Except String String
  updateInfo : Except String Unit
  deriving Repr

/-- `IngestionResult`, reduced to the fields the verified property is about. -/
structure IngestionResultM where
  success : Bool
  version_id : Option String
  chunksCount : Nat
  tracking_id : Option String
  error_message : Option String := none
  deriving Repr, DecidableEq

/-- One recorded `update_document_progress` call
(stage, progress, `details['error']`, status). -/
structure TrackCall where
  stage : Tracking.Stage
  progress : ℚ
  errorDetail : Option String := none
  status : Option Tracking.Status := none
  deriving Repr, DecidableEq

/-- Tracker calls are made only when progress tracking is enabled. -/
def tcalls (cfg : PipelineConfig) (l : List TrackCall) : List TrackCall :=
  if cfg.enable_tracking then l else []

/-- Positional constructor for `TrackCall`. -/
def mkCall (stage : Tracking.Stage) (progress : ℚ)
    (errorDetail : Option String) (status : Option Tracking.Status) :
    TrackCall :=
  { stage := stage, progress := progress, errorDetail := errorDetail,
    status := status }

/-- The error message built by the top-level handler:
`f"Erro durante ingestão de {filename}: {str(e)}"`. -/
def wrapError (filename msg : String) : String :=
  "Erro durante ingestão de " ++ filename ++ ": " ++ msg

/-- The error message of the `stop_on_validation_error` abort:
`f"Validação crítica falhou para {filename}"`. -/
def validationAbortMsg (filename : String) : String :=
  "Validação crítica falhou para " ++ filename

/-- The success record returned at the end of the `try` body. -/
def successResult (tid : Option String) (nChunks : Nat)
    (versionId : Option String) : IngestionResultM :=
  { success := true, version_id := versionId, chunksCount := nChunks,
    tracking_id := tid }

/-- The failed (but not raised) record of the `stop_on_validation_error`
abort. -/
def validationAbortResult (tid : Option String) (filename : String) :
    IngestionResultM :=
  { success := false, version_id := none, chunksCount := 0,
    tracking_id := tid, error_message := some (validationAbortMsg filename) }

/-- Stage 7 (storage simulation) and the final success record. -/
def storagePhase (cfg : PipelineConfig) (tid : Option String) (nChunks : Nat)
    (versionId : Option String) (calls : List TrackCall) :
    Except String IngestionResultM × List TrackCall :=
  let c1 := calls ++ tcalls cfg
    [mkCall Tracking.Stage.storage 50 none none,
     mkCall Tracking.Stage.storage 100 none (some Tracking.Status.completed),
     mkCall Tracking.Stage.completed 100 none (some Tracking.Status.completed)]
  (Except.ok (successResult tid nChunks versionId), c1)

/-- Stage 6 (versioning, when enabled) followed by `storagePhase`. -/
def versioningOnward (cfg : PipelineConfig) (env : PipelineEnv)
    (tid : Option String) (nChunks : Nat) (calls : List TrackCall) :
    Except String IngestionResultM × List TrackCall :=
  if cfg.enable_versioning then
    let c1 := calls ++ tcalls cfg [mkCall Tracking.Stage.versioning 0 none none]
    match env.createVersion with
    | Except.error m => (Except.error m, c1)
    | Except.ok versionId =>
      match env.updateInfo with
      | Except.error m => (Except.error m, c1)
      | Except.ok _ =>
        let c2 := c1 ++ tcalls cfg
          [mkCall Tracking.Stage.versioning 100 none
            (some Tracking.Status.completed)]
        storagePhase cfg tid nChunks (some versionId) c2
  else
    storagePhase cfg tid nChunks none calls

/-- The `try` body of `IngestionPipeline.ingest_document`: tracking start,
parse, dedup short-circuit, metadata extraction, chunking, optional
validation with the `stop_on_validation_error` abort, optional versioning,
storage simulation and the final result — propagating the first raised
exception, together with the tracker calls made up to that point. -/
def ingestBody (cfg : PipelineConfig) (env : PipelineEnv) (filename : String) :
    Except String IngestionResultM × List TrackCall :=
  let tid : Option String :=
    if cfg.enable_tracking then some env.trackingId else none
  let c0 := tcalls cfg [mkCall Tracking.Stage.parsing 0 none none]
  match env.parse with
  | Except.error m => (Except.error m, c0)
  | Except.ok _ =>
    let c1 := c0 ++ tcalls cfg
      [mkCall Tracking.Stage.parsing 100 none (some Tracking.Status.completed)]
    if cfg.enable_versioning && cfg.enable_deduplication &&
        env.tempFileProvided && env.dedupHit.isSome then
      let c2 := c1 ++ tcalls cfg
        [mkCall Tracking.Stage.completed 100 none
          (some Tracking.Status.completed)]
      (Except.ok (successResult tid env.dedupChunksCount env.dedupHit), c2)
    else
      let c2 := c1 ++ tcalls cfg
        [mkCall Tracking.Stage.metadata_extraction 0 none none]
      match env.extract with
      | Except.error m => (Except.error m, c2)
      | Except.ok _ =>
        let c3 := c2 ++ tcalls cfg
          [mkCall Tracking.Stage.metadata_extraction 100 none
            (some Tracking.Status.completed)]
        let c4 := c3 ++ tcalls cfg [mkCall Tracking.Stage.chunking 0 none none]
        match env.chunk with
        | Except.error m => (Except.error m, c4)
        | Except.ok nChunks =>
          let c5 := c4 ++ tcalls cfg
            [mkCall Tracking.Stage.chunking 100 none
              (some Tracking.Status.completed)]
          if cfg.enable_validation then
            let c6 := c5 ++ tcalls cfg
              [mkCall Tracking.Stage.validation 0 none none]
            match env.validate with
            | Except.error m => (Except.error m, c6)
            | Except.ok summary =>
              let c7 := c6 ++ tcalls cfg
                [mkCall Tracking.Stage.validation 100 none
                  (some Tracking.Status.completed)]
              if cfg.stop_on_validation_error && !summary.isPipelineValid then
                let c8 := c7 ++ tcalls cfg
                  [mkCall Tracking.Stage.failed 100
                    (some (validationAbortMsg filename))
                    (some Tracking.Status.failed)]
                (Except.ok (validationAbortResult tid filename), c8)
              else
                versioningOnward cfg env tid nChunks c7
          else
            versioningOnward cfg env tid nChunks c5

/-- `IngestionPipeline.ingest_document`: the `try` body wrapped in the
top-level `except` handler, which converts a raised exception into a failed
result carrying the wrapped message and — when tracking is active — records
the FAILED stage with the error detail. -/
def ingest_document (cfg : PipelineConfig) (env : PipelineEnv)
    (filename : String) : IngestionResultM × List TrackCall :=
  match ingestBody cfg env filename with
  | (Except.ok r, calls) => (r, calls)
  | (Except.error m, calls) =>
      ({ success := false, version_id := none, chunksCount := 0,
         tracking_id := if cfg.enable_tracking then some env.trackingId else none,
         error_message := some (wrapError filename m) },
       calls ++ tcalls cfg
         [mkCall Tracking.Stage.failed 100 (some m)
           (some Tracking.Status.failed)])

end Pipeline

/-! ## Concrete sample data used by the witnesses -/

namespace Samples

open Versioning

/-- A stored version used to exercise the dedup branch. -/
def v1 : DocumentVersion :=
  { version_id := "vid1", document_id := "doc1",
    version_number := some (1, 0, 0), content_hash := "hash1",
    file_path := "/tmp/a.txt", original_filename := "a.txt", file_size := 3,
    created_at := "t0", status := VersionStatus.active, metadata := [] }

/-- A second stored version of the same document. -/
def v2 : DocumentVersion :=
  { v1 with version_id := "vid2", version_number := some (1, 0, 1),
            content_hash := "hash2", created_at := "t1" }

/-- A manager state holding `doc1` with versions `v1` and `v2`. -/
def mgr : ManagerState :=
  { versions := [("vid1", v1), ("vid2", v2)]
    documents := [("doc1",
      { document_id := "doc1", original_filename := "a.txt",
        created_at := "t0", latest_version := "vid2", version_count := 2 })] }

/-- An environment whose file content hashes to `v1`'s stored hash. -/
def envDup : CreateEnv :=
  { contentHash := "hash1", docId := "b_20250101", versionId := "vidX",
    fileSize := 3, now := "t2" }

/-- A freshly started tracked document belonging to batch `b`. -/
def trkDoc : Tracking.DocumentProgress :=
  { document_id := "d1", filename := "f.txt", status := Tracking.Status.queued
    current_stage := Tracking.Stage.upload, stages := fun _ => none
    batch_id := some "b" }

/-- A one-document batch. -/
def trkBatch : Tracking.BatchProgress :=
  { batch_id := "b", total_documents := 1, docIds := ["d1"] }

/-- A tracker holding `trkDoc` and `trkBatch`, before any update. -/
def trk0 : Tracking.TrackerState :=
  { documents := [("d1", trkDoc)], batches := [("b", trkBatch)],
    notifications := [], tick := 5 }

/-- One update that completes the batch's only document. -/
def trkComplete : List Tracking.UpdateEvent :=
  [{ document_id := "d1", stage := Tracking.Stage.completed,
     status := some Tracking.Status.completed }]

/-- A later update on the already-completed batch. -/
def trkLater : List Tracking.UpdateEvent :=
  [{ document_id := "d1", stage := Tracking.Stage.failed,
     status := some Tracking.Status.failed }]

/-- A tracker holding one untracked-batch document `d`. -/
def trkSolo : Tracking.TrackerState :=
  Tracking.start_document_processing
    { documents := [], batches := [], notifications := [], tick := 1 }
    "d" "g.txt" none

/-- Eight updates marking every stage except FAILED as COMPLETED (including
UPLOAD and the COMPLETED stage itself). -/
def trkEight : List Tracking.UpdateEvent :=
  [{ document_id := "d", stage := Tracking.Stage.upload,
     status := some Tracking.Status.completed },
   { document_id := "d", stage := Tracking.Stage.parsing,
     status := some Tracking.Status.completed },
   { document_id := "d", stage := Tracking.Stage.chunking,
     status := some Tracking.Status.completed },
   { document_id := "d", stage := Tracking.Stage.metadata_extraction,
     status := some Tracking.Status.completed },
   { document_id := "d", stage := Tracking.Stage.validation,
     status := some Tracking.Status.completed },
   { document_id := "d", stage := Tracking.Stage.versioning,
     status := some Tracking.Status.completed },
   { document_id := "d", stage := Tracking.Stage.storage,
     status := some Tracking.Status.completed },
   { document_id := "d", stage := Tracking.Stage.completed,
     status := some Tracking.Status.completed }]

/-- A pipeline environment whose parser raises `boom`. -/
def pipeEnvFail : Pipeline.PipelineEnv :=
  { trackingId := "t1", parse := Except.error "boom"
    tempFileProvided := true, dedupHit := none, dedupChunksCount := 0
    extract := Except.ok (), chunk := Except.ok 0
    validate := Except.ok { isPipelineValid := true }
    createVersion := Except.ok "v", updateInfo := Except.ok () }

/-- The document record after the eight completing updates. -/
def trkDocAfter : Tracking.DocumentProgress :=
  match (trkEight.foldl Tracking.update_document_progress
      trkSolo).documents.find? (fun p => p.1 == "d") with
  | some p => p.2
  | none =>
      { document_id := "d", filename := "g.txt"
        status := Tracking.Status.queued
        current_stage := Tracking.Stage.upload, stages := fun _ => none }

end Samples

end RagSimples

/-! # Theorems -/

namespace RagSimples.Versioning

lemma lexLt_trans {a b c : Int × Int × Int} (h1 : lexLt a b) (h2 : lexLt b c) :
    lexLt a c := by
  rcases a with ⟨a1, a2, a3⟩
  rcases b with ⟨b1, b2, b3⟩
  rcases c with ⟨c1, c2, c3⟩
  simp only [lexLt] at h1 h2 ⊢
  omega

lemma lexLt_total (a b : Int × Int × Int) : lexLt a b ∨ lexLt b a ∨ a = b := by
  rcases a with ⟨a1, a2, a3⟩
  rcases b with ⟨b1, b2, b3⟩
  simp only [lexLt, Prod.mk.injEq]
  omega

/-- Weak lexicographic order. -/
def lexLe (a b : Int × Int × Int) : Prop := lexLt a b ∨ a = b

lemma lexLe_lexMax_left (a b : Int × Int × Int) : lexLe a (lexMax a b) := by
  unfold lexMax
  split
  case isTrue h => exact Or.inl h
  case isFalse h => exact Or.inr rfl

lemma lexLe_lexMax_right (a b : Int × Int × Int) : lexLe b (lexMax a b) := by
  unfold lexMax
  split
  case isTrue h => exact Or.inr rfl
  case isFalse h =>
    rcases lexLt_total a b with h' | h' | h'
    · exact absurd h' h
    · exact Or.inl h'
    · exact Or.inr h'.symm

lemma lexLe_trans {a b c : Int × Int × Int} (h1 : lexLe a b) (h2 : lexLe b c) :
    lexLe a c := by
  rcases h1 with h1 | rfl
  · rcases h2 with h2 | rfl
    · exact Or.inl (lexLt_trans h1 h2)
    · exact Or.inl h1
  · exact h2

lemma foldl_lexMax_init (l : List (Int × Int × Int)) (n : Int × Int × Int) :
    lexLe n (l.foldl lexMax n) := by
  induction l generalizing n with
  | nil => exact Or.inr rfl
  | cons a l ih =>
      exact lexLe_trans (lexLe_lexMax_left n a) (ih (lexMax n a))

lemma foldl_lexMax_mem (l : List (Int × Int × Int)) :
    ∀ (n x : Int × Int × Int), x ∈ l → lexLe x (l.foldl lexMax n) := by
  induction l with
  | nil => intro n x hx; cases hx
  | cons a l ih =>
      intro n x hx
      rcases List.mem_cons.mp hx with rfl | hx'
      · exact lexLe_trans (lexLe_lexMax_right n x) (foldl_lexMax_init l _)
      · exact ih (lexMax n a) x hx'

lemma lexLt_patch_succ (m : Int × Int × Int) :
    lexLt m (m.1, m.2.1, m.2.2 + 1) := by
  rcases m with ⟨m1, m2, m3⟩
  simp [lexLt]

lemma lexLe_lt_trans {a b c : Int × Int × Int} (h1 : lexLe a b)
    (h2 : lexLt b c) : lexLt a c := by
  rcases h1 with h1 | rfl
  · exact lexLt_trans h1 h2
  · exact h2

/-- C1: a `create_document_version` call whose file content hashes to the
`content_hash` of an already-stored version returns that stored version and
leaves both the versions dict and the documents dict unchanged, for every
filename, metadata and parent argument. -/
theorem create_document_version_dedup (s : ManagerState) (env : CreateEnv)
    (file_path original_filename : String) (metadata : List (String × String))
    (parent_version : Option String) (v : DocumentVersion)
    (h : find_version_by_hash s env.contentHash = some v) :
    create_document_version s env file_path original_filename metadata
      parent_version = (v, s) := by
  unfold create_document_version
  simp only [h]

/-- Witness for C1: re-ingesting the bytes of stored version `v1` under the
different filename `b.txt` returns `v1` itself and leaves the manager state
untouched. -/
theorem create_document_version_dedup_witness :
    create_document_version Samples.mgr Samples.envDup "/tmp/b.txt" "b.txt"
      [] none = (Samples.v1, Samples.mgr) :=
  create_document_version_dedup Samples.mgr Samples.envDup "/tmp/b.txt"
    "b.txt" [] none Samples.v1 (by decide)

/-- C5: for a document id present in the documents dict, the version number
`_get_next_version_number` computes is strictly greater, lexicographically,
than every parseable `(major, minor, patch)` number stored for that
document. -/
theorem get_next_version_number_gt (s : ManagerState) (documentId : String)
    (hdoc : (s.documents.find? (fun p => p.1 == documentId)).isSome = true)
    (t : Int × Int × Int)
    (ht : t ∈ parsedNumbers (docVersions s documentId)) :
    lexLt t (get_next_version_number s documentId) := by
  unfold get_next_version_number
  rcases hpn : parsedNumbers (docVersions s documentId) with _ | ⟨n, rest⟩
  · rw [hpn] at ht; cases ht
  · have hvs : (docVersions s documentId).isEmpty = false := by
      rcases hv : docVersions s documentId with _ | ⟨a, l⟩
      · rw [hv] at hpn; simp [parsedNumbers] at hpn
      · simp
    have hnone : (s.documents.find? (fun p => p.1 == documentId)).isNone = false := by
      rcases hfind : s.documents.find? (fun p => p.1 == documentId) with _ | p
      · rw [hfind] at hdoc; simp at hdoc
      · rw [hfind]; rfl
    rw [hpn] at ht
    simp only [hnone, Bool.false_eq_true, if_false, hvs, hpn]
    have hle : lexLe t (rest.foldl lexMax n) := by
      rcases List.mem_cons.mp ht with rfl | ht'
      · exact foldl_lexMax_init rest t
      · exact foldl_lexMax_mem rest n t ht'
    exact lexLe_lt_trans hle (lexLt_patch_succ _)

/-- Witness for C5: in the sample state, both stored numbers `1.0.0` and
`1.0.1` of `doc1` are lexicographically below the computed next number. -/
theorem get_next_version_number_gt_witness :
    lexLt (1, 0, 1) (get_next_version_number Samples.mgr "doc1") :=
  get_next_version_number_gt Samples.mgr "doc1" (by decide) (1, 0, 1)
    (by decide)

end RagSimples.Versioning

namespace RagSimples.Chunking

/-- C8: in the windowed loop of `FixedSizeChunker.chunk_text` (reached
whenever the text is longer than `chunk_size`), the next window start
`max(end_index - chunk_overlap, start_index + 1)` is strictly greater than
the current one for every configuration — even when `chunk_overlap ≥
chunk_size` or the boundary adjustment shrinks the window — so the measure
`text.length - start` decreases and the loop (`chunkLoop`, accepted by Lean
as a total function on that account) terminates on every finite text. -/
theorem nextStart_strictly_increases (cfg : ChunkConfig) (text : List Char)
    (start : Nat) (hlong : cfg.chunk_size < text.length)
    (hguard : start < text.length) :
    start < nextStart cfg text start := by
  unfold nextStart
  omega

/-- Witness for C8: a window at position 0 of a 12-character text advances
strictly even with `chunk_overlap` twice the `chunk_size`. -/
theorem nextStart_strictly_increases_witness :
    0 < nextStart { chunk_size := 5, chunk_overlap := 10 }
      ("hello world!".toList) 0 :=
  nextStart_strictly_increases { chunk_size := 5, chunk_overlap := 10 }
    ("hello world!".toList) 0 (by decide) (by decide)

/-- C2 counterexample: `"abc"` is non-empty, not whitespace-only and shorter
than the default `chunk_size = 1000`, yet `chunk_document` with the
fixed-size strategy and the default `min_chunk_size = 100` returns no chunk
at all — the final `len(chunk.text.strip()) >= min_chunk_size` filter drops
the single short chunk, so the output does not have exactly one chunk. -/
theorem chunk_document_fixed_short_text_dropped :
    "abc".toList ≠ ([] : List Char) ∧
    pyStrip "abc".toList ≠ ([] : List Char) ∧
    ("abc".toList).length < ({} : ChunkConfig).chunk_size ∧
    chunk_document_fixed {} "abc".toList "a.txt" = [] ∧
    (chunk_document_fixed {} "abc".toList "a.txt").length ≠ 1 := by
  decide

/-- C2 amended: for every non-empty, non-whitespace-only text shorter than
`chunk_size` whose stripped length is at least `min_chunk_size`,
`chunk_document` with the fixed-size strategy returns exactly one chunk
spanning the whole document.  (The claim's "regardless of the configured
min_size" fails: the final filter of `ChunkingSystem.chunk_document` drops
the sole chunk when the stripped text is shorter than `min_chunk_size`.) -/
theorem chunk_document_fixed_short_singleton (cfg : ChunkConfig)
    (text : List Char) (filename : String)
    (hstrip : pyStrip text ≠ [])
    (hlen : text.length < cfg.chunk_size)
    (hmin : cfg.min_chunk_size ≤ (pyStrip text).length) :
    chunk_document_fixed cfg text filename =
      [{ text := text, start_index := 0, end_index := text.length,
         chunk_id := create_chunk_id filename 0, chunk_index := 0,
         total_chunks := some 1 }] := by
  have htne : text ≠ [] := by
    intro h
    rw [h] at hstrip
    exact hstrip rfl
  have h1 : (text.isEmpty || (pyStrip text).isEmpty) = false := by
    rcases text with _ | ⟨a, as⟩
    · exact absurd rfl htne
    · rcases hps : pyStrip (a :: as) with _ | ⟨b, bs⟩
      · exact absurd hps hstrip
      · simp [hps]
  unfold chunk_document_fixed
  rw [h1]
  simp only [Bool.false_eq_true, if_false]
  unfold chunk_text
  rw [if_pos (le_of_lt hlen)]
  simp [hmin]

/-- Witness for the amended C2: a 5-character text with `chunk_size = 10` and
`min_chunk_size = 3` yields exactly the single whole-document chunk. -/
theorem chunk_document_fixed_short_singleton_witness :
    chunk_document_fixed { chunk_size := 10, min_chunk_size := 3 }
      "abcde".toList "w.txt" =
      [{ text := "abcde".toList, start_index := 0, end_index := 5,
         chunk_id := create_chunk_id "w.txt" 0, chunk_index := 0,
         total_chunks := some 1 }] :=
  chunk_document_fixed_short_singleton
    { chunk_size := 10, min_chunk_size := 3 } "abcde".toList "w.txt"
    (by decide) (by decide) (by decide)

end RagSimples.Chunking

namespace RagSimples.Validation

lemma any_isErrCrit (issues : List ValidationIssue) :
    issues.any isErrCrit =
      (issues.any (fun i => i.severity == Severity.critical) ||
        issues.any (fun i => i.severity == Severity.errorSev)) := by
  induction issues with
  | nil => rfl
  | cons a l ih =>
      simp only [List.any_cons, ih, isErrCrit]
      cases h : a.severity <;>
        simp [Bool.or_assoc, Bool.or_comm, Bool.or_left_comm]

lemma mkResult_valid (issues : List ValidationIssue) (total passed : Nat) :
    (mkResult issues total passed).is_valid =
      noErrCrit (mkResult issues total passed) := by
  simp only [mkResult, noErrCrit, any_isErrCrit]

lemma mkResult_score (issues : List ValidationIssue) (total passed : Nat)
    (hpos : 0 < total) (hle : passed ≤ total) :
    scoreOk (mkResult issues total passed) := by
  unfold mkResult scoreOk
  simp only
  rw [if_pos hpos]
  refine ⟨rfl, ?_, ?_⟩
  · apply div_nonneg <;> positivity
  · rw [div_le_one (by exact_mod_cast hpos)]
    exact_mod_cast hle

lemma comb_snd (a b : RuleOut) : (comb a b).2 = a.2 + b.2 := rfl

lemma ruleFileExists_le (inp : FileInput) : (ruleFileExists inp).2 ≤ 1 := by
  unfold ruleFileExists; split <;> simp

lemma ruleFileAccessible_le (inp : FileInput) :
    (ruleFileAccessible inp).2 ≤ 1 := by
  unfold ruleFileAccessible; split <;> simp

lemma ruleFileSize_le (inp : FileInput) : (ruleFileSize inp).2 ≤ 1 := by
  unfold ruleFileSize; split <;> simp

lemma ruleFileType_le (inp : FileInput) : (ruleFileType inp).2 ≤ 1 := by
  unfold ruleFileType; split <;> simp

lemma ruleFileExtension_le (inp : FileInput) :
    (ruleFileExtension inp).2 ≤ 1 := by
  unfold ruleFileExtension; split <;> simp

lemma ruleFilenameFormat_le (inp : FileInput) :
    (ruleFilenameFormat inp).2 ≤ 1 := by
  unfold ruleFilenameFormat; split <;> simp

lemma ruleEncodingDetection_le (inp : FileInput) :
    (ruleEncodingDetection inp).2 ≤ 1 := by
  unfold ruleEncodingDetection
  split
  · split <;> simp
  · simp

lemma file_acc_le (inp : FileInput) :
    (comb (ruleFileExists inp) (comb (ruleFileAccessible inp)
      (comb (ruleFileSize inp) (comb (ruleFileType inp)
        (comb (ruleFileExtension inp) (comb (ruleFilenameFormat inp)
          (ruleEncodingDetection inp))))))).2 ≤ 7 := by
  simp only [comb_snd]
  have h1 := ruleFileExists_le inp
  have h2 := ruleFileAccessible_le inp
  have h3 := ruleFileSize_le inp
  have h4 := ruleFileType_le inp
  have h5 := ruleFileExtension_le inp
  have h6 := ruleFilenameFormat_le inp
  have h7 := ruleEncodingDetection_le inp
  omega

lemma ruleContentNotEmpty_le (inp : ContentInput) :
    (ruleContentNotEmpty inp).2 ≤ 1 := by
  unfold ruleContentNotEmpty; split <;> simp

lemma ruleContentLength_le (inp : ContentInput) :
    (ruleContentLength inp).2 ≤ 1 := by
  unfold ruleContentLength; split <;> simp

lemma ruleTextQuality_le (inp : ContentInput) :
    (ruleTextQuality inp).2 ≤ 1 := by
  unfold ruleTextQuality; split <;> simp

lemma ruleLanguageDetection_le (inp : ContentInput) :
    (ruleLanguageDetection inp).2 ≤ 1 := by
  unfold ruleLanguageDetection; split <;> simp

lemma ruleEncodingConsistency_le (inp : ContentInput) :
    (ruleEncodingConsistency inp).2 ≤ 1 := by
  unfold ruleEncodingConsistency; split <;> simp

lemma ruleStructureIntegrity_le (inp : ContentInput) :
    (ruleStructureIntegrity inp).2 ≤ 1 := by
  unfold ruleStructureIntegrity; split <;> simp

lemma content_acc_le (inp : ContentInput) :
    (comb (ruleContentNotEmpty inp) (comb (ruleContentLength inp)
      (comb (ruleTextQuality inp) (comb (ruleLanguageDetection inp)
        (comb (ruleEncodingConsistency inp)
          (ruleStructureIntegrity inp)))))).2 ≤ 6 := by
  simp only [comb_snd]
  have h1 := ruleContentNotEmpty_le inp
  have h2 := ruleContentLength_le inp
  have h3 := ruleTextQuality_le inp
  have h4 := ruleLanguageDetection_le inp
  have h5 := ruleEncodingConsistency_le inp
  have h6 := ruleStructureIntegrity_le inp
  omega

lemma ruleChunkNotEmpty_le (c : VChunk) : (ruleChunkNotEmpty c).2 ≤ 1 := by
  unfold ruleChunkNotEmpty; split <;> simp

lemma ruleChunkSizeLimits_le (c : VChunk) : (ruleChunkSizeLimits c).2 ≤ 1 := by
  unfold ruleChunkSizeLimits; split <;> simp

lemma ruleMetadataConsistency_le (c : VChunk) :
    (ruleMetadataConsistency c).2 ≤ 1 := by
  unfold ruleMetadataConsistency
  split
  · simp
  · split <;> simp

lemma ruleContentCoherence_le (c : VChunk) :
    (ruleContentCoherence c).2 ≤ 1 := by
  unfold ruleContentCoherence; split <;> simp

lemma perChunk_le (c : VChunk) : (perChunk c).2 ≤ 4 := by
  unfold perChunk
  simp only [comb_snd]
  have h1 := ruleChunkNotEmpty_le c
  have h2 := ruleChunkSizeLimits_le c
  have h3 := ruleMetadataConsistency_le c
  have h4 := ruleContentCoherence_le c
  omega

lemma pairOutcome_le (cfg : Chunking.ChunkConfig) (cur next : VChunk) :
    (pairOutcome cfg cur next).2 ≤ 1 := by
  unfold pairOutcome
  split
  · split
    · dsimp only
      split <;> simp
    · split <;> simp
  · simp

lemma ruleRequiredFields_le (inp : MetadataInput) :
    (ruleRequiredFields inp).2 ≤ 1 := by
  unfold ruleRequiredFields; split <;> simp

lemma ruleFieldTypes_le (inp : MetadataInput) : (ruleFieldTypes inp).2 ≤ 1 := by
  unfold ruleFieldTypes; split <;> simp

lemma ruleFormat_le (ruleName : String) (o : FormatOutcome) :
    (ruleFormat ruleName o).2 ≤ 1 := by
  unfold ruleFormat; split <;> simp

lemma ruleCompleteness_le (inp : MetadataInput) :
    (ruleCompleteness inp).2 ≤ 1 := by
  unfold ruleCompleteness; split <;> simp

lemma metadata_acc_le (inp : MetadataInput) :
    (comb (ruleRequiredFields inp) (comb (ruleFieldTypes inp)
      (comb (ruleFormat "email_format" inp.emails)
        (comb (ruleFormat "phone_format" inp.phones)
          (comb (ruleFormat "url_format" inp.urls)
            (ruleCompleteness inp)))))).2 ≤ 6 := by
  simp only [comb_snd]
  have h1 := ruleRequiredFields_le inp
  have h2 := ruleFieldTypes_le inp
  have h3 := ruleFormat_le "email_format" inp.emails
  have h4 := ruleFormat_le "phone_format" inp.phones
  have h5 := ruleFormat_le "url_format" inp.urls
  have h6 := ruleCompleteness_le inp
  omega

lemma sum_map_le_mul {α : Type} (l : List α) (f : α → Nat) (k : Nat)
    (h : ∀ x ∈ l, f x ≤ k) : (l.map f).sum ≤ k * l.length := by
  induction l with
  | nil => simp
  | cons a t ih =>
      simp only [List.map_cons, List.sum_cons, List.length_cons]
      have ha := h a (List.mem_cons_self a t)
      have ht := ih (fun x hx => h x (List.mem_cons_of_mem a hx))
      calc f a + (t.map f).sum ≤ k + k * t.length := Nat.add_le_add ha ht
        _ = k * (t.length + 1) := by ring

/-- The main-branch `passed_checks` of `validate_chunks` is at most
`5 * n - 1` for `n` chunks: at most four of the six per-chunk rules are
evaluated, and the overlap rule at most `n - 1` times. -/
lemma chunks_passed_le (cfg : Chunking.ChunkConfig) (chunks : List VChunk)
    (hne : chunks ≠ []) :
    ((chunks.map perChunk).map (fun r => r.2)).sum +
      (((chunks.zip chunks.tail).map
        (fun p => pairOutcome cfg p.1 p.2)).map (fun r => r.2)).sum ≤
      5 * chunks.length - 1 := by
  have h1 : ((chunks.map perChunk).map (fun r => r.2)).sum ≤
      4 * chunks.length := by
    rw [List.map_map]
    have := sum_map_le_mul chunks (fun c => (perChunk c).2) 4
      (fun c _ => perChunk_le c)
    simpa using this
  have h2 : (((chunks.zip chunks.tail).map
      (fun p => pairOutcome cfg p.1 p.2)).map (fun r => r.2)).sum ≤
      chunks.length - 1 := by
    rw [List.map_map]
    have hb := sum_map_le_mul (chunks.zip chunks.tail)
      (fun p => (pairOutcome cfg p.1 p.2).2) 1
      (fun p _ => pairOutcome_le cfg p.1 p.2)
    have hlen : (chunks.zip chunks.tail).length ≤ chunks.length - 1 := by
      rw [List.length_zip, List.length_tail]
      omega
    calc ((chunks.zip chunks.tail).map
        (fun p => (pairOutcome cfg p.1 p.2).2)).sum
        ≤ 1 * (chunks.zip chunks.tail).length := hb
      _ = (chunks.zip chunks.tail).length := by ring
      _ ≤ chunks.length - 1 := hlen
  have hn : 1 ≤ chunks.length := by
    rcases chunks with _ | _
    · exact absurd rfl hne
    · simp
  omega

/-- C3: for each of the four validators (document, content, chunk, metadata)
with their default rule sets, `is_valid` is true exactly when no issue in the
returned result has severity ERROR or CRITICAL — including the short-circuit
returns for a missing file, empty content and zero chunks. -/
theorem validators_is_valid_iff_no_error_critical :
    (∀ inp : FileInput,
      (validate_file inp).is_valid = noErrCrit (validate_file inp)) ∧
    (∀ inp : ContentInput,
      (validate_content inp).is_valid = noErrCrit (validate_content inp)) ∧
    (∀ (cfg : Chunking.ChunkConfig) (chunks : List VChunk),
      (validate_chunks cfg chunks).is_valid =
        noErrCrit (validate_chunks cfg chunks)) ∧
    (∀ inp : MetadataInput,
      (validate_metadata inp).is_valid = noErrCrit (validate_metadata inp)) := by
  refine ⟨?_, ?_, ?_, ?_⟩
  · intro inp
    unfold validate_file
    cases h : inp.fileExists
    · rw [if_pos rfl]
      simp [ruleFileExists, h, noErrCrit, isErrCrit]
    · rw [if_neg (by simp [h])]
      exact mkResult_valid _ _ _
  · intro inp
    unfold validate_content
    cases h : inp.emptyContent
    · rw [if_neg (by simp [h])]
      exact mkResult_valid _ _ _
    · rw [if_pos rfl]
      simp [ruleContentNotEmpty, h, noErrCrit, isErrCrit]
  · intro cfg chunks
    unfold validate_chunks
    cases chunks with
    | nil => simp [noErrCrit, isErrCrit]
    | cons c cs =>
        rw [if_neg (by simp)]
        exact mkResult_valid _ _ _
  · intro inp
    unfold validate_metadata
    exact mkResult_valid _ _ _

/-- C4: for each of the four validators, `score = passed_checks /
total_checks` (the hard-coded `score = 0.0` short-circuit paths agree because
`passed_checks = 0` there) and `score` lies in `[0, 1]`. -/
theorem validators_score_in_unit_interval :
    (∀ inp : FileInput, scoreOk (validate_file inp)) ∧
    (∀ inp : ContentInput, scoreOk (validate_content inp)) ∧
    (∀ (cfg : Chunking.ChunkConfig) (chunks : List VChunk),
      scoreOk (validate_chunks cfg chunks)) ∧
    (∀ inp : MetadataInput, scoreOk (validate_metadata inp)) := by
  refine ⟨?_, ?_, ?_, ?_⟩
  · intro inp
    unfold validate_file
    cases h : inp.fileExists
    · rw [if_pos rfl]
      simp [scoreOk, ruleFileExists, h]
    · rw [if_neg (by simp [h])]
      exact mkResult_score _ _ _ (by norm_num) (file_acc_le inp)
  · intro inp
    unfold validate_content
    cases h : inp.emptyContent
    · rw [if_neg (by simp [h])]
      exact mkResult_score _ _ _ (by norm_num) (content_acc_le inp)
    · rw [if_pos rfl]
      simp [scoreOk, ruleContentNotEmpty, h]
  · intro cfg chunks
    unfold validate_chunks
    cases chunks with
    | nil => simp [scoreOk]
    | cons c cs =>
        rw [if_neg (by simp)]
        refine mkResult_score _ _ _ (by simp) ?_
        have hb := chunks_passed_le cfg (c :: cs) (by simp)
        have hn : (c :: cs).length = cs.length + 1 := rfl
        simp only [List.isEmpty_cons, Bool.false_eq_true, if_false]
        omega
  · intro inp
    unfold validate_metadata
    exact mkResult_score _ _ _ (by norm_num) (metadata_acc_le inp)

/-- C9: for every non-empty chunk list, `validate_chunks` counts
`6 * n` total checks but can pass at most `5 * n - 1` of them (the
`chunk_boundaries` rule is counted yet never evaluated, and the overlap rule
runs at most `n - 1` times), so the score is strictly below 1. -/
theorem validate_chunks_score_lt_one (cfg : Chunking.ChunkConfig)
    (chunks : List VChunk) (hne : chunks ≠ []) :
    (validate_chunks cfg chunks).total_checks = 6 * chunks.length ∧
    (validate_chunks cfg chunks).passed_checks ≤ 5 * chunks.length - 1 ∧
    (validate_chunks cfg chunks).score < 1 := by
  rcases chunks with _ | ⟨c, cs⟩
  · exact absurd rfl hne
  · unfold validate_chunks
    rw [if_neg (by simp)]
    simp only [List.isEmpty_cons, Bool.false_eq_true, if_false, mkResult]
    have hb := chunks_passed_le cfg (c :: cs) (by simp)
    have hn : (c :: cs).length = cs.length + 1 := rfl
    have hlt : (((c :: cs).map perChunk).map (fun r => r.2)).sum +
        ((((c :: cs).zip (c :: cs).tail).map
          (fun p => pairOutcome cfg p.1 p.2)).map (fun r => r.2)).sum <
        6 * (c :: cs).length := by omega
    refine ⟨by simp, by simpa using hb, ?_⟩
    rw [if_pos (by omega)]
    rw [div_lt_one (by exact_mod_cast Nat.pos_of_ne_zero (by omega))]
    exact_mod_cast hlt

/-- Witness for C9: a single well-formed chunk passes 4 of its 6 counted
checks, scoring `2/3 < 1`. -/
theorem validate_chunks_score_lt_one_witness :
    (validate_chunks {}
      [{ textEmpty := false, size := ChunkSizeOutcome.ok,
         otherMetaKeys := false, startPos := some 0, endPos := some 5,
         coherencePasses := true }]).total_checks = 6 * 1 ∧
    (validate_chunks {}
      [{ textEmpty := false, size := ChunkSizeOutcome.ok,
         otherMetaKeys := false, startPos := some 0, endPos := some 5,
         coherencePasses := true }]).passed_checks ≤ 5 * 1 - 1 ∧
    (validate_chunks {}
      [{ textEmpty := false, size := ChunkSizeOutcome.ok,
         otherMetaKeys := false, startPos := some 0, endPos := some 5,
         coherencePasses := true }]).score < 1 :=
  validate_chunks_score_lt_one {}
    [{ textEmpty := false, size := ChunkSizeOutcome.ok,
       otherMetaKeys := false, startPos := some 0, endPos := some 5,
       coherencePasses := true }] (by decide)

end RagSimples.Validation

namespace RagSimples.Tracking

/-- The filter predicate selecting batch-completion notifications of `bid`. -/
lemma count_append_batch_none (l1 l2 : List NotificationM) (bid : String)
    (h : ∀ n ∈ l2, n.batch_id = none) :
    ((l1 ++ l2).filter (fun n =>
      n.ntype == NotificationType.success && n.batch_id == some bid)).length =
    (l1.filter (fun n =>
      n.ntype == NotificationType.success && n.batch_id == some bid)).length := by
  rw [List.filter_append]
  have h2 : l2.filter (fun n =>
      n.ntype == NotificationType.success && n.batch_id == some bid) = [] := by
    rw [List.filter_eq_nil_iff]
    intro n hn
    simp [h n hn]
  rw [h2, List.append_nil]

lemma docTransition_batch_none (doc : DocumentProgress) (e : UpdateEvent) :
    ∀ n ∈ (docTransition doc e).2, n.batch_id = none := by
  unfold docTransition
  split
  · intro n hn
    rw [List.mem_singleton] at hn
    subst hn
    rfl
  · split
    · intro n hn
      rw [List.mem_singleton] at hn
      subst hn
      rfl
    · split
      · intro n hn
        cases hn
      · intro n hn
        cases hn

lemma find_dictUpdate_eq {α : Type} (l : List (String × α)) (k : String)
    (f : α → α) :
    (dictUpdate l k f).find? (fun p => p.1 == k) =
      (l.find? (fun p => p.1 == k)).map (fun p => (k, f p.2)) := by
  induction l with
  | nil => rfl
  | cons a t ih =>
      cases h : (a.1 == k)
      · have hs : dictUpdate (a :: t) k f = a :: dictUpdate t k f := by
          simp only [dictUpdate, List.map_cons, h, Bool.false_eq_true, if_false]
        rw [hs, List.find?_cons_of_neg _ (by simp [h]),
          List.find?_cons_of_neg _ (by simp [h])]
        exact ih
      · have hs : dictUpdate (a :: t) k f = (k, f a.2) :: dictUpdate t k f := by
          simp only [dictUpdate, List.map_cons, h]
          rw [if_true]
        rw [hs, List.find?_cons_of_pos _ (by simp),
          List.find?_cons_of_pos _ (by simp [h])]
        rfl

lemma find_dictUpdate_ne {α : Type} (l : List (String × α)) (k b : String)
    (f : α → α) (hkb : (k == b) = false) :
    (dictUpdate l k f).find? (fun p => p.1 == b) =
      l.find? (fun p => p.1 == b) := by
  induction l with
  | nil => rfl
  | cons a t ih =>
      cases h : (a.1 == k)
      · have hs : dictUpdate (a :: t) k f = a :: dictUpdate t k f := by
          simp only [dictUpdate, List.map_cons, h, Bool.false_eq_true, if_false]
        rw [hs]
        cases hb : (a.1 == b)
        · rw [List.find?_cons_of_neg _ (by simp [hb]),
            List.find?_cons_of_neg _ (by simp [hb])]
          exact ih
        · rw [List.find?_cons_of_pos _ (by simp [hb]),
            List.find?_cons_of_pos _ (by simp [hb])]
      · have hak : a.1 = k := eq_of_beq h
        have hs : dictUpdate (a :: t) k f = (k, f a.2) :: dictUpdate t k f := by
          simp only [dictUpdate, List.map_cons, h]
          rw [if_true]
        have hab : (a.1 == b) = false := by
          rw [hak]
          exact hkb
        rw [hs, List.find?_cons_of_neg _ (by simp [hkb]),
          List.find?_cons_of_neg _ (by simp [hab])]
        exact ih

lemma stampBatch_completedAt_some (s : TrackerState) (bid : String)
    (q : String) (batch : BatchProgress)
    (hf : s.batches.find? (fun p => p.1 == bid) = some (q, batch)) :
    batchCompletedAt (stampBatch s bid) bid = some s.tick := by
  unfold batchCompletedAt stampBatch
  dsimp only
  rw [find_dictUpdate_eq, hf]
  rfl

lemma stampBatch_completedAt_ne (s : TrackerState) (bid bid2 : String)
    (hb : (bid2 == bid) = false) :
    batchCompletedAt (stampBatch s bid2) bid = batchCompletedAt s bid := by
  unfold batchCompletedAt stampBatch
  dsimp only
  rw [find_dictUpdate_ne _ _ _ _ hb]

lemma stampBatch_count_succ (s : TrackerState) (bid : String) :
    batchCompletionCount (stampBatch s bid) bid =
      batchCompletionCount s bid + 1 := by
  unfold batchCompletionCount stampBatch
  dsimp only
  rw [List.filter_append]
  simp

lemma stampBatch_count_ne (s : TrackerState) (bid bid2 : String)
    (hb : (bid2 == bid) = false) :
    batchCompletionCount (stampBatch s bid2) bid =
      batchCompletionCount s bid := by
  unfold batchCompletionCount stampBatch
  dsimp only
  rw [List.filter_append]
  simp [hb]

lemma batchPhase_keeps (s : TrackerState) (bid : String) (ob : Option String)
    (t : Nat) (h : batchCompletedAt s bid = some t) :
    batchCompletedAt (batchPhase s ob) bid = some t := by
  unfold batchPhase
  cases ob with
  | none => exact h
  | some bid2 =>
      dsimp only
      rcases hf : s.batches.find? (fun p => p.1 == bid2) with _ | ⟨q, batch⟩
      · rw [hf]
        exact h
      · rw [hf]
        dsimp only
        split
        case isTrue hg =>
          cases hb : (bid2 == bid)
          · rw [stampBatch_completedAt_ne s bid bid2 hb]
            exact h
          · exfalso
            have hbid : bid2 = bid := eq_of_beq hb
            subst hbid
            unfold batchCompletedAt at h
            rw [hf] at h
            have hNone : batch.completed_at.isNone = true := by
              simp only [Bool.and_eq_true] at hg
              exact hg.2
            rw [Option.isNone_iff_eq_none] at hNone
            have h2 : batch.completed_at = some t := h
            rw [hNone] at h2
            cases h2
        case isFalse hg => exact h

lemma batchPhase_count (s : TrackerState) (bid : String) (ob : Option String)
    (hInv : batchCompletionCount s bid =
      if (batchCompletedAt s bid).isSome then 1 else 0) :
    batchCompletionCount (batchPhase s ob) bid =
      if (batchCompletedAt (batchPhase s ob) bid).isSome then 1 else 0 := by
  unfold batchPhase
  cases ob with
  | none => exact hInv
  | some bid2 =>
      dsimp only
      rcases hf : s.batches.find? (fun p => p.1 == bid2) with _ | ⟨q, batch⟩
      · rw [hf]
        exact hInv
      · rw [hf]
        dsimp only
        split
        case isTrue hg =>
          cases hb : (bid2 == bid)
          · rw [stampBatch_count_ne s bid bid2 hb,
              stampBatch_completedAt_ne s bid bid2 hb]
            exact hInv
          · have hbid : bid2 = bid := eq_of_beq hb
            subst hbid
            have hNone : batch.completed_at.isNone = true := by
              simp only [Bool.and_eq_true] at hg
              exact hg.2
            have hSAt : batchCompletedAt s bid2 = batch.completed_at := by
              unfold batchCompletedAt
              rw [hf]
            have hzero : batchCompletionCount s bid2 = 0 := by
              rw [hInv, hSAt]
              rw [Option.isNone_iff_eq_none] at hNone
              rw [hNone]
              rfl
            rw [stampBatch_count_succ s bid2,
              stampBatch_completedAt_some s bid2 q batch hf, hzero]
            rfl
        case isFalse hg => exact hInv

lemma applyDocUpdate_count (s : TrackerState) (e : UpdateEvent)
    (doc : DocumentProgress) (notifs : List NotificationM) (bid : String)
    (h : ∀ n ∈ notifs, n.batch_id = none) :
    batchCompletionCount (applyDocUpdate s e doc notifs) bid =
      batchCompletionCount s bid := by
  unfold batchCompletionCount applyDocUpdate
  dsimp only
  exact count_append_batch_none _ _ _ h

lemma update_count_invariant (bid : String) (s : TrackerState)
    (e : UpdateEvent)
    (hInv : batchCompletionCount s bid =
      if (batchCompletedAt s bid).isSome then 1 else 0) :
    batchCompletionCount (update_document_progress s e) bid =
      if (batchCompletedAt (update_document_progress s e) bid).isSome
      then 1 else 0 := by
  unfold update_document_progress
  rcases hf : s.documents.find? (fun p => p.1 == e.document_id) with _ | ⟨k, doc0⟩
  · rw [hf]
    exact hInv
  · rw [hf]
    dsimp only
    have h1 := applyDocUpdate_count s e
      (docTransition (updateStage doc0 e.stage e.status) e).1
      (docTransition (updateStage doc0 e.stage e.status) e).2 bid
      (docTransition_batch_none (updateStage doc0 e.stage e.status) e)
    exact batchPhase_count
      (applyDocUpdate s e
        (docTransition (updateStage doc0 e.stage e.status) e).1
        (docTransition (updateStage doc0 e.stage e.status) e).2) bid
      (docTransition (updateStage doc0 e.stage e.status) e).1.batch_id
      (by rw [h1]; exact hInv)

lemma update_keeps_completedAt (bid : String) (s : TrackerState)
    (e : UpdateEvent) (t : Nat) (h : batchCompletedAt s bid = some t) :
    batchCompletedAt (update_document_progress s e) bid = some t := by
  unfold update_document_progress
  rcases hf : s.documents.find? (fun p => p.1 == e.document_id) with _ | ⟨k, doc0⟩
  · rw [hf]
    exact h
  · rw [hf]
    dsimp only
    exact batchPhase_keeps _ bid _ t h

lemma foldl_count_invariant (bid : String) (events : List UpdateEvent)
    (s : TrackerState)
    (hInv : batchCompletionCount s bid =
      if (batchCompletedAt s bid).isSome then 1 else 0) :
    batchCompletionCount (events.foldl update_document_progress s) bid =
      if (batchCompletedAt
        (events.foldl update_document_progress s) bid).isSome
      then 1 else 0 := by
  induction events generalizing s with
  | nil => exact hInv
  | cons e rest ih =>
      exact ih (update_document_progress s e) (update_count_invariant bid s e hInv)

lemma foldl_keeps_completedAt (bid : String) (events : List UpdateEvent)
    (s : TrackerState) (t : Nat) (h : batchCompletedAt s bid = some t) :
    batchCompletedAt (events.foldl update_document_progress s) bid = some t := by
  induction events generalizing s with
  | nil => exact h
  | cons e rest ih =>
      exact ih (update_document_progress s e)
        (update_keeps_completedAt bid s e t h)

/-- C6: starting from any tracker state in which batch `bid` has no
`completed_at` stamp and no batch-completion notification, any sequence of
`update_document_progress` calls stamps `completed_at` at most once — once it
holds `some t` after a prefix of the calls, every later call preserves that
exact value — and the number of batch-completion notifications for `bid` is
exactly one if the stamp was set and zero otherwise (so a second one is
never emitted). -/
theorem batch_completed_at_most_once (s0 : TrackerState) (bid : String)
    (l1 l2 : List UpdateEvent) (t : Nat)
    (h0 : batchCompletedAt s0 bid = none)
    (hn : batchCompletionCount s0 bid = 0) :
    (batchCompletionCount
        ((l1 ++ l2).foldl update_document_progress s0) bid =
      if (batchCompletedAt
          ((l1 ++ l2).foldl update_document_progress s0) bid).isSome
      then 1 else 0) ∧
    (batchCompletedAt (l1.foldl update_document_progress s0) bid = some t →
      batchCompletedAt ((l1 ++ l2).foldl update_document_progress s0) bid =
        some t) := by
  constructor
  · exact foldl_count_invariant bid (l1 ++ l2) s0 (by rw [hn, h0]; rfl)
  · intro ht
    rw [List.foldl_append]
    exact foldl_keeps_completedAt bid l2 _ t ht

/-- Witness for C6: completing the only document of batch `b` stamps
`completed_at` with the then-current tick `5`, a later failing update keeps
the stamp and no second completion notification appears. -/
theorem batch_completed_at_most_once_witness :
    (batchCompletionCount
        ((Samples.trkComplete ++ Samples.trkLater).foldl
          update_document_progress Samples.trk0) "b" =
      if (batchCompletedAt
          ((Samples.trkComplete ++ Samples.trkLater).foldl
            update_document_progress Samples.trk0) "b").isSome
      then 1 else 0) ∧
    (batchCompletedAt
        (Samples.trkComplete.foldl update_document_progress Samples.trk0)
        "b" = some 5 →
      batchCompletedAt
        ((Samples.trkComplete ++ Samples.trkLater).foldl
          update_document_progress Samples.trk0) "b" = some 5) :=
  batch_completed_at_most_once Samples.trk0 "b" Samples.trkComplete
    Samples.trkLater 5 (by rfl) (by rfl)

/-- C10: `DocumentProgress.overall_progress` is always the number of
COMPLETED stage entries divided by 7 (the stage-enum size 9 minus the
COMPLETED and FAILED members) times 100, and is not bounded by 100: after
eight `update_document_progress` calls marking eight stages (UPLOAD through
the COMPLETED stage itself) as COMPLETED, it is `800/7 > 100`. -/
theorem overall_progress_formula_and_exceeds_100 :
    (∀ doc : DocumentProgress,
      overall_progress doc = (completedStageCount doc : ℚ) / 7 * 100) ∧
    overall_progress Samples.trkDocAfter = 800 / 7 ∧
    100 < overall_progress Samples.trkDocAfter := by
  refine ⟨?_, ?_, ?_⟩
  · intro doc
    unfold overall_progress totalStages allStages
    norm_num
  · have h8 : completedStageCount Samples.trkDocAfter = 8 := by rfl
    unfold overall_progress totalStages allStages
    rw [h8]
    norm_num
  · have h8 : completedStageCount Samples.trkDocAfter = 8 := by rfl
    unfold overall_progress totalStages allStages
    rw [h8]
    norm_num

end RagSimples.Tracking

namespace RagSimples.Pipeline

/-- C7: whenever a stage inside `ingest_document`'s `try` body raises an
exception with message `m` — so the body's embedding evaluates to
`Except.error m` — the caller still receives an ordinary `IngestionResult`:
`success` is false, `error_message` is the wrapped message containing `m`,
and, when progress tracking is active, a FAILED-stage update carrying the
error detail was recorded.  The embedding `ingest_document` is a total Lean
function, so no exception ever propagates. -/
theorem ingest_document_never_raises (cfg : PipelineConfig)
    (env : PipelineEnv) (filename m : String)
    (h : (ingestBody cfg env filename).1 = Except.error m) :
    (ingest_document cfg env filename).1.success = false ∧
    (ingest_document cfg env filename).1.error_message =
      some (wrapError filename m) ∧
    (cfg.enable_tracking = true →
      mkCall Tracking.Stage.failed 100 (some m)
          (some Tracking.Status.failed) ∈
        (ingest_document cfg env filename).2) := by
  unfold ingest_document
  rcases hb : ingestBody cfg env filename with ⟨r, calls⟩
  have hr : r = Except.error m := by
    rw [hb] at h
    exact h
  subst hr
  dsimp only
  refine ⟨rfl, rfl, ?_⟩
  intro htr
  have ht : tcalls cfg [mkCall Tracking.Stage.failed 100 (some m)
      (some Tracking.Status.failed)] =
      [mkCall Tracking.Stage.failed 100 (some m)
        (some Tracking.Status.failed)] := by
    unfold tcalls
    rw [htr]
    rfl
  rw [ht]
  exact List.mem_append_right _ (List.mem_singleton.mpr rfl)

/-- Witness for C7: with tracking enabled and a parser that raises `boom`,
`ingest_document` returns a failed result wrapping the message and records
the FAILED stage. -/
theorem ingest_document_never_raises_witness :
    (ingest_document {} Samples.pipeEnvFail "f.txt").1.success = false ∧
    (ingest_document {} Samples.pipeEnvFail "f.txt").1.error_message =
      some (wrapError "f.txt" "boom") ∧
    (({} : PipelineConfig).enable_tracking = true →
      mkCall Tracking.Stage.failed 100 (some "boom")
          (some Tracking.Status.failed) ∈
        (ingest_document {} Samples.pipeEnvFail "f.txt").2) :=
  ingest_document_never_raises {} Samples.pipeEnvFail "f.txt" "boom" (by rfl)

end RagSimples.Pipeline
